import Mathlib

set_option maxRecDepth 100000

/-!
Verification development for the hudkeep blob-sync helper.

The module embeds the logic of `src/hudkeep/__init__.py`:

* `local_props` — streaming MD5 hash (1 MiB chunks), size and mtime of a
  local file;
* `blob_props` — the stored hash, size and mtime of a remote object;
* `get_container_client` — parsing of the container URL by the regular
  expression `(https://[^/]+)/([^\?]+)\??(.*)` and the SAS-key rejection;
* `store`, `retrieve`, `list_stored` — the compare-then-act transfer
  operations, modelled as pure state transformers over an explicit world
  of local files and remote objects.

Machine words are `Nat` reduced modulo `2 ^ 32` where Python's fixed-width
semantics matter (inside MD5); bytes are `Nat`.
-/

/-! MD5, as computed by the standard library digest used in the source.
The implementation follows RFC 1321: little-endian words, 64-byte blocks,
the sine-derived constant table, and length padding at finalisation.
A streaming context (chain value, byte buffer, running length) mirrors the
incremental update interface that the source drives one chunk at a time. -/

/-- Little-endian byte decomposition of a number, k bytes wide. -/
def leBytes : Nat → Nat → List Nat
  | 0, _ => []
  | k + 1, x => (x % 256) :: leBytes k (x / 256)

/-- Little-endian word assembled from a list of bytes. -/
def leWord : List Nat → Nat
  | [] => 0
  | b :: rest => b % 256 + 256 * leWord rest

/-- Rotate a 32-bit word left by s bits. -/
def rotl32 (x s : Nat) : Nat :=
  (((x <<< s) % 2 ^ 32) ||| (x >>> (32 - s))) % 2 ^ 32

/-- Bitwise complement of a 32-bit word. -/
def not32 (x : Nat) : Nat := (2 ^ 32 - 1) ^^^ x

/-- The MD5 round-constant table, floor of 2^32 times abs sin (i + 1). -/
def md5K : List Nat :=
  [0xd76aa478, 0xe8c7b756, 0x242070db, 0xc1bdceee,
   0xf57c0faf, 0x4787c62a, 0xa8304613, 0xfd469501,
   0x698098d8, 0x8b44f7af, 0xffff5bb1, 0x895cd7be,
   0x6b901122, 0xfd987193, 0xa679438e, 0x49b40821,
   0xf61e2562, 0xc040b340, 0x265e5a51, 0xe9b6c7aa,
   0xd62f105d, 0x02441453, 0xd8a1e681, 0xe7d3fbc8,
   0x21e1cde6, 0xc33707d6, 0xf4d50d87, 0x455a14ed,
   0xa9e3e905, 0xfcefa3f8, 0x676f02d9, 0x8d2a4c8a,
   0xfffa3942, 0x8771f681, 0x6d9d6122, 0xfde5380c,
   0xa4beea44, 0x4bdecfa9, 0xf6bb4b60, 0xbebfbc70,
   0x289b7ec6, 0xeaa127fa, 0xd4ef3085, 0x04881d05,
   0xd9d4d039, 0xe6db99e5, 0x1fa27cf8, 0xc4ac5665,
   0xf4292244, 0x432aff97, 0xab9423a7, 0xfc93a039,
   0x655b59c3, 0x8f0ccc92, 0xffeff47d, 0x85845dd1,
   0x6fa87e4f, 0xfe2ce6e0, 0xa3014314, 0x4e0811a1,
   0xf7537e82, 0xbd3af235, 0x2ad7d2bb, 0xeb86d391]

/-- The MD5 per-round left-rotation amounts. -/
def md5S : List Nat :=
  [7, 12, 17, 22, 7, 12, 17, 22, 7, 12, 17, 22, 7, 12, 17, 22,
   5, 9, 14, 20, 5, 9, 14, 20, 5, 9, 14, 20, 5, 9, 14, 20,
   4, 11, 16, 23, 4, 11, 16, 23, 4, 11, 16, 23, 4, 11, 16, 23,
   6, 10, 15, 21, 6, 10, 15, 21, 6, 10, 15, 21, 6, 10, 15, 21]

/-- One MD5 round applied to the running (A, B, C, D) state.
The message word index and mixing function depend on the round number i. -/
def md5Round (block : List Nat) (st : Nat × Nat × Nat × Nat) (i : Nat) :
    Nat × Nat × Nat × Nat :=
  let A := st.1; let B := st.2.1; let C := st.2.2.1; let D := st.2.2.2
  let fg : Nat × Nat :=
    if i < 16 then ((B &&& C) ||| (not32 B &&& D), i)
    else if i < 32 then ((D &&& B) ||| (not32 D &&& C), (5 * i + 1) % 16)
    else if i < 48 then (B ^^^ C ^^^ D, (3 * i + 5) % 16)
    else (C ^^^ (B ||| not32 D), (7 * i) % 16)
  let m := leWord (((block.drop (4 * fg.2)).take 4))
  let tmp := (fg.1 + A + md5K.getD i 0 + m) % 2 ^ 32
  (D, (B + rotl32 tmp (md5S.getD i 0)) % 2 ^ 32, B, C)

/-- The MD5 compression function over one 64-byte block. -/
def md5Compress (h : Nat × Nat × Nat × Nat) (block : List Nat) :
    Nat × Nat × Nat × Nat :=
  let r := (List.range 64).foldl (md5Round block) h
  ((h.1 + r.1) % 2 ^ 32, (h.2.1 + r.2.1) % 2 ^ 32,
   (h.2.2.1 + r.2.2.1) % 2 ^ 32, (h.2.2.2 + r.2.2.2) % 2 ^ 32)

/-- Streaming MD5 state: chain value, buffered bytes of an incomplete
block, and the total number of bytes absorbed so far. -/
structure MD5Ctx where
  chain : Nat × Nat × Nat × Nat
  buf : List Nat
  len : Nat
deriving DecidableEq, Repr

/-- The initial MD5 context. -/
def md5CtxInit : MD5Ctx :=
  ⟨(0x67452301, 0xefcdab89, 0x98badcfe, 0x10325476), [], 0⟩

/-- Absorb one byte into a streaming MD5 context, compressing whenever a
full 64-byte block has accumulated. -/
def md5Absorb (c : MD5Ctx) (b : Nat) : MD5Ctx :=
  let buf := c.buf ++ [b]
  if buf.length = 64 then ⟨md5Compress c.chain buf, [], c.len + 1⟩
  else ⟨c.chain, buf, c.len + 1⟩

/-- Absorb a list of bytes, one at a time, into a streaming MD5 context;
this is the update operation the source calls once per file chunk. -/
def md5Update (c : MD5Ctx) (data : List Nat) : MD5Ctx :=
  data.foldl md5Absorb c

/-- The MD5 padding for a message of len bytes: the byte 0x80, zeros up
to 56 mod 64, then the bit length as eight little-endian bytes. -/
def md5Pad (len : Nat) : List Nat :=
  0x80 :: List.replicate ((120 - (len + 1) % 64) % 64) 0 ++ leBytes 8 (8 * len)

/-- Finalise a streaming MD5 context into the 16-byte digest. -/
def md5Final (c : MD5Ctx) : List Nat :=
  let c2 := md5Update c (md5Pad c.len)
  leBytes 4 c2.chain.1 ++ leBytes 4 c2.chain.2.1 ++
    leBytes 4 c2.chain.2.2.1 ++ leBytes 4 c2.chain.2.2.2

/-- The one-pass MD5 digest of a byte string. -/
def md5Digest (data : List Nat) : List Nat :=
  md5Final (md5Update md5CtxInit data)

/-! The source hashes a file by reading it in chunks of 2^20 bytes until
the read comes back empty. The chunk list is produced by a fuel-bounded
loop (the fuel bounds the number of loop iterations; one byte is consumed
per iteration at the very least, so the byte count is always enough fuel,
and the fuel guard is never reached on that call). -/

/-- Split a byte string into successive chunks of 2^20 bytes, as the
read loop of the source does; fuel bounds the iteration count. -/
def readChunksAux : Nat → List Nat → List (List Nat)
  | _, [] => []
  | 0, l => [l]
  | fuel + 1, b :: rest => ((b :: rest).take (2 ^ 20)) :: readChunksAux fuel ((b :: rest).drop (2 ^ 20))

/-- The chunk sequence the while-read loop of local_props traverses. -/
def readFileChunks (data : List Nat) : List (List Nat) :=
  readChunksAux data.length data

/-- The digest computed the way local_props computes it: a fresh context
updated once per 2^20-byte chunk, then finalised. -/
def md5DigestChunked (data : List Nat) : List Nat :=
  md5Final ((readFileChunks data).foldl md5Update md5CtxInit)

/-! Container-URL resolution. The source matches the location against the
regular expression (https://[^/]+)/([^\?]+)\??(.*) anchored at the start.
matchCore is that match, computed on the character list: the literal
scheme, then a maximal non-empty run of non-slash characters followed by a
mandatory slash, then a maximal non-empty run of non-question-mark
characters, an optional question mark, and finally a maximal run of
non-newline characters (the dot of the regular expression excludes the
newline). Greedy matching with backtracking coincides with the maximal
runs here because each run is bounded by the very character the following
literal requires. A failed match leaves the source dereferencing a null
match object, which the specification classifies as the format error; a
successful match with a non-empty third group is rejected as a SAS key
(the security-policy error); otherwise a container handle is built from
the first two groups under the fixed managed-identity credential. -/

/-- The characters of the mandatory scheme prefix of the pattern. -/
def httpsChars : List Char := ['h', 't', 't', 'p', 's', ':', '/', '/']

/-- Match of the part of the container-URL pattern after the scheme: a
non-empty maximal run of non-slash characters, a slash, a non-empty
maximal run of non-question-mark characters, an optional question mark,
and a maximal run of non-newline characters as the final capture. -/
def matchTail (rest : List Char) : Option (List Char × List Char × List Char) :=
  match rest.takeWhile (fun c => c != '/'), rest.dropWhile (fun c => c != '/') with
  | h :: hs, c :: rest2 =>
    if c = '/' then
      match rest2.takeWhile (fun c => c != '?') with
      | [] => none
      | p =>
        let rest3 := rest2.dropWhile (fun c => c != '?')
        let q : List Char :=
          match rest3 with
          | c2 :: r => if c2 = '?' then r else c2 :: r
          | [] => []
        some (httpsChars ++ (h :: hs), p, q.takeWhile (fun c => c != '\n'))
    else none
  | _, _ => none

/-- Match of the container-URL regular expression on a character list,
returning the three captured groups. -/
def matchCore (cs : List Char) : Option (List Char × List Char × List Char) :=
  if cs.take 8 = httpsChars then matchTail (cs.drop 8) else none

/-- Outcome of resolving a container location: a handle on the account
URL and container path under the fixed managed-identity credential, the
SAS-key rejection, or the failure on a location of the wrong shape. -/
inductive Resolved where
  | ok (accountUrl containerPath : String)
  | securityPolicyError
  | formatError
deriving DecidableEq, Repr

/-- Resolution of a container location, as get_container_client does it:
regular-expression match, rejection of a non-empty query capture, and
otherwise a handle from the two captured groups. -/
def get_container_client (container_url : String) : Resolved :=
  match matchCore container_url.data with
  | none => .formatError
  | some (g1, g2, g3) =>
    if g3 ≠ [] then .securityPolicyError
    else .ok ⟨g1⟩ ⟨g2⟩

/-! The world the transfer operations act on: an association list of local
files and one of remote objects. A local file has contents and a
modification time; a remote object additionally carries the content-hash
tag and media type stored with it at upload time. -/

/-- A local file: its bytes and its modification time. -/
structure LocalFile where
  contents : List Nat
  mtime : Nat
deriving DecidableEq, Repr

/-- A remote object: its bytes, the content-hash tag and media type set
when it was uploaded, and its last-modified time. -/
structure RemoteObject where
  contents : List Nat
  contentMd5 : List Nat
  contentType : String
  mtime : Nat
deriving DecidableEq, Repr

/-- The state visible to the operations: local files keyed by path and
remote objects keyed by blob name. -/
structure World where
  localFiles : List (String × LocalFile)
  remoteObjects : List (String × RemoteObject)
deriving DecidableEq, Repr

/-- Lookup in an association list. -/
def lookupA {α : Type} (k : String) : List (String × α) → Option α
  | [] => none
  | (k2, v) :: rest => if k2 = k then some v else lookupA k rest

/-- Overwriting insert into an association list. -/
def updateA {α : Type} (k : String) (v : α) : List (String × α) → List (String × α)
  | [] => [(k, v)]
  | (k2, v2) :: rest => if k2 = k then (k, v) :: rest else (k2, v2) :: updateA k v rest

/-- Properties of a local file, as local_props computes them: the MD5
digest streamed over the file in 2^20-byte chunks, the byte size from
stat, and the modification time from stat. -/
def local_props (f : LocalFile) : List Nat × Nat × Nat :=
  (md5DigestChunked f.contents, f.contents.length, f.mtime)

/-- Properties of a remote object, as blob_props reads them: the stored
content-hash tag, the object size, and its last-modified time. -/
def blob_props (b : RemoteObject) : List Nat × Nat × Nat :=
  (b.contentMd5, b.contents.length, b.mtime)

/-- Result of a store or retrieve call. The ok payload is the value the
Python function returns: some true from the transfer branch, none from
the silent skip branch. conflictError carries the data the raised message
interpolates: both names, sizes and modification times. The two missing
cases model the errors the underlying layers raise when the needed file
or object is absent. -/
inductive Outcome where
  | ok (returned : Option Bool)
  | conflictError (localName blobName : String) (lSize lMtime bSize bMtime : Nat)
  | securityPolicyError
  | formatError
  | localFileMissing
  | remoteObjectMissing
deriving DecidableEq, Repr

/-- The store operation. The container URL is resolved first (so either
resolution error precedes everything and leaves the world untouched),
then the local properties are computed, then the exists-and-not-forced
test selects between the hash comparison and the upload. The upload
writes the local bytes to the blob name with overwrite, tagging the
object with the locally computed hash and the media type detected from
the file, and returns true. mime stands for the external type sniffer
and now for the upload timestamp the service assigns. -/
def store (mime : List Nat → String) (now : Nat) (w : World)
    (local_fn blob_fn container_url : String) (forced : Bool) : Outcome × World :=
  match get_container_client container_url with
  | .formatError => (.formatError, w)
  | .securityPolicyError => (.securityPolicyError, w)
  | .ok _ _ =>
    match lookupA local_fn w.localFiles with
    | none => (.localFileMissing, w)
    | some f =>
      let l := local_props f
      match lookupA blob_fn w.remoteObjects, forced with
      | some b, false =>
        let bp := blob_props b
        if bp.1 = l.1 then (.ok none, w)
        else (.conflictError local_fn blob_fn l.2.1 l.2.2 bp.2.1 bp.2.2, w)
      | _, _ =>
        (.ok (some true),
         { w with remoteObjects :=
             updateA blob_fn ⟨f.contents, l.1, mime f.contents, now⟩ w.remoteObjects })

/-- The retrieve operation, the mirror of store: resolution first, then
the exists-and-not-forced test on the local file selects between the hash
comparison and the download; the download writes the remote bytes into
the local path (its modification time becoming the write time) and
returns true. -/
def retrieve (now : Nat) (w : World)
    (local_fn blob_fn container_url : String) (forced : Bool) : Outcome × World :=
  match get_container_client container_url with
  | .formatError => (.formatError, w)
  | .securityPolicyError => (.securityPolicyError, w)
  | .ok _ _ =>
    match lookupA local_fn w.localFiles, forced with
    | some f, false =>
      let l := local_props f
      match lookupA blob_fn w.remoteObjects with
      | none => (.remoteObjectMissing, w)
      | some b =>
        let bp := blob_props b
        if bp.1 = l.1 then (.ok none, w)
        else (.conflictError local_fn blob_fn l.2.1 l.2.2 bp.2.1 bp.2.2, w)
    | _, _ =>
      match lookupA blob_fn w.remoteObjects with
      | none => (.remoteObjectMissing, w)
      | some b =>
        (.ok (some true),
         { w with localFiles := updateA local_fn ⟨b.contents, now⟩ w.localFiles })

/-- Whether a blob key starts with the given text. Modelled from the
spec: the remote listing interface filters keys by the requested
beginning; the external service performs the filter, the spec describes
its result. -/
def keyStartsWith (pre k : String) : Bool :=
  pre.data.isPrefixOf k.data

/-- Result of a listing call: the materialized entry list, or either
resolution error. -/
inductive ListOutcome where
  | ok (items : List (String × RemoteObject))
  | securityPolicyError
  | formatError
deriving DecidableEq, Repr

/-- The list_stored operation: resolve the container, ask the service for
the keys beginning with the given text, and materialize the answer into a
list. -/
def list_stored (w : World) (blobs_starts_with container_url : String) : ListOutcome :=
  match get_container_client container_url with
  | .formatError => .formatError
  | .securityPolicyError => .securityPolicyError
  | .ok _ _ =>
    .ok (w.remoteObjects.filter (fun e => keyStartsWith blobs_starts_with e.1))

/-- Modelled from the spec: the expected shape of a container location,
https scheme, a host, a slash, a container path, and an optional query
introduced by a question mark. The host is the non-empty text before the
next slash and the container path is the non-empty text before the
optional question mark. -/
def shapeOK (url : String) : Prop :=
  ∃ host path : String, host ≠ "" ∧ '/' ∉ host.data ∧ path ≠ "" ∧ '?' ∉ path.data ∧
    (url = "https://" ++ host ++ "/" ++ path ∨
     ∃ query : String, url = "https://" ++ host ++ "/" ++ path ++ "?" ++ query)

/-! Helper lemmas. -/

theorem md5Update_append (c : MD5Ctx) (a b : List Nat) :
    md5Update c (a ++ b) = md5Update (md5Update c a) b := by
  simp [md5Update, List.foldl_append]

theorem flatten_readChunksAux (fuel : Nat) (xs : List Nat) :
    (readChunksAux fuel xs).flatten = xs := by
  induction fuel generalizing xs with
  | zero =>
    cases xs with
    | nil => simp [readChunksAux]
    | cons b rest => simp [readChunksAux]
  | succ fuel ih =>
    cases xs with
    | nil => simp [readChunksAux]
    | cons b rest =>
      simp [readChunksAux, ih, List.take_append_drop]

theorem foldl_md5Update_flatten (ls : List (List Nat)) (c : MD5Ctx) :
    ls.foldl md5Update c = md5Update c ls.flatten := by
  induction ls generalizing c with
  | nil => simp [md5Update]
  | cons a rest ih => simp [List.foldl_cons, ih, md5Update_append]

theorem md5DigestChunked_eq (data : List Nat) :
    md5DigestChunked data = md5Digest data := by
  unfold md5DigestChunked md5Digest readFileChunks
  rw [foldl_md5Update_flatten, flatten_readChunksAux]

theorem length_leBytes (k x : Nat) : (leBytes k x).length = k := by
  induction k generalizing x with
  | zero => simp [leBytes]
  | succ k ih => simp [leBytes, ih]

theorem length_md5Final (c : MD5Ctx) : (md5Final c).length = 16 := by
  simp [md5Final, length_leBytes]

theorem takeWhile_middle (p : Char → Bool) (l : List Char) (c : Char) (r : List Char)
    (hl : ∀ x ∈ l, p x = true) (hc : p c = false) :
    (l ++ c :: r).takeWhile p = l ∧ (l ++ c :: r).dropWhile p = c :: r := by
  induction l with
  | nil => simp [List.takeWhile, List.dropWhile, hc]
  | cons a as ih =>
    have ha : p a = true := hl a (List.mem_cons_self a as)
    have ih2 := ih (fun x hx => hl x (List.mem_cons_of_mem a hx))
    simp [List.takeWhile, List.dropWhile, ha, ih2.1, ih2.2]

theorem takeWhile_total (p : Char → Bool) (l : List Char)
    (hl : ∀ x ∈ l, p x = true) :
    l.takeWhile p = l ∧ l.dropWhile p = [] := by
  induction l with
  | nil => simp
  | cons a as ih =>
    have ha : p a = true := hl a (List.mem_cons_self a as)
    have ih2 := ih (fun x hx => hl x (List.mem_cons_of_mem a hx))
    simp [List.takeWhile, List.dropWhile, ha, ih2.1, ih2.2]

theorem matchTail_query (hostL pathL queryL : List Char)
    (hh : hostL ≠ []) (hh2 : '/' ∉ hostL) (hp : pathL ≠ []) (hp2 : '?' ∉ pathL) :
    matchTail (hostL ++ '/' :: (pathL ++ '?' :: queryL)) =
      some (httpsChars ++ hostL, pathL, queryL.takeWhile (fun c => c != '\n')) := by
  obtain ⟨a, as, rfl⟩ := List.exists_cons_of_ne_nil hh
  obtain ⟨b, bs, rfl⟩ := List.exists_cons_of_ne_nil hp
  have h1 := takeWhile_middle (fun c => c != '/') (a :: as) '/' ((b :: bs) ++ '?' :: queryL)
    (fun x hx => by
      have hne : x ≠ '/' := fun h => hh2 (by rw [← h]; exact hx)
      simp [hne]) (by simp)
  have h2 := takeWhile_middle (fun c => c != '?') (b :: bs) '?' queryL
    (fun x hx => by
      have hne : x ≠ '?' := fun h => hp2 (by rw [← h]; exact hx)
      simp [hne]) (by simp)
  unfold matchTail
  rw [h1.1, h1.2]
  dsimp only
  rw [h2.1, h2.2]
  simp

theorem matchTail_noquery (hostL pathL : List Char)
    (hh : hostL ≠ []) (hh2 : '/' ∉ hostL) (hp : pathL ≠ []) (hp2 : '?' ∉ pathL) :
    matchTail (hostL ++ '/' :: pathL) = some (httpsChars ++ hostL, pathL, []) := by
  obtain ⟨a, as, rfl⟩ := List.exists_cons_of_ne_nil hh
  obtain ⟨b, bs, rfl⟩ := List.exists_cons_of_ne_nil hp
  have h1 := takeWhile_middle (fun c => c != '/') (a :: as) '/' (b :: bs)
    (fun x hx => by
      have hne : x ≠ '/' := fun h => hh2 (by rw [← h]; exact hx)
      simp [hne]) (by simp)
  have h2 := takeWhile_total (fun c => c != '?') (b :: bs)
    (fun x hx => by
      have hne : x ≠ '?' := fun h => hp2 (by rw [← h]; exact hx)
      simp [hne])
  unfold matchTail
  rw [h1.1, h1.2]
  dsimp only
  rw [h2.1, h2.2]
  simp

theorem data_url_query (host path query : String) :
    ("https://" ++ host ++ "/" ++ path ++ "?" ++ query).data
      = httpsChars ++ (host.data ++ '/' :: (path.data ++ '?' :: query.data)) := by
  simp [String.data_append, httpsChars,
    show ("https://" : String).data = ['h', 't', 't', 'p', 's', ':', '/', '/'] from rfl,
    show ("/" : String).data = ['/'] from rfl,
    show ("?" : String).data = ['?'] from rfl]

theorem data_url_noquery (host path : String) :
    ("https://" ++ host ++ "/" ++ path).data
      = httpsChars ++ (host.data ++ '/' :: path.data) := by
  simp [String.data_append, httpsChars,
    show ("https://" : String).data = ['h', 't', 't', 'p', 's', ':', '/', '/'] from rfl,
    show ("/" : String).data = ['/'] from rfl]

theorem matchCore_scheme (rest : List Char) :
    matchCore (httpsChars ++ rest) = matchTail rest := by
  unfold matchCore
  rw [show (httpsChars ++ rest).take 8 = httpsChars from rfl,
    show (httpsChars ++ rest).drop 8 = rest from rfl, if_pos rfl]

theorem data_ne_nil_of_ne_empty (s : String) (h : s ≠ "") : s.data ≠ [] := by
  intro hd
  exact h (String.ext hd)

theorem matchCore_query (host path query : String)
    (hh : host ≠ "") (hh2 : '/' ∉ host.data) (hp : path ≠ "") (hp2 : '?' ∉ path.data) :
    matchCore ("https://" ++ host ++ "/" ++ path ++ "?" ++ query).data
      = some (httpsChars ++ host.data, path.data,
          query.data.takeWhile (fun c => c != '\n')) := by
  rw [data_url_query, matchCore_scheme]
  exact matchTail_query host.data path.data query.data
    (data_ne_nil_of_ne_empty host hh) hh2 (data_ne_nil_of_ne_empty path hp) hp2

theorem matchCore_noquery (host path : String)
    (hh : host ≠ "") (hh2 : '/' ∉ host.data) (hp : path ≠ "") (hp2 : '?' ∉ path.data) :
    matchCore ("https://" ++ host ++ "/" ++ path).data
      = some (httpsChars ++ host.data, path.data, []) := by
  rw [data_url_noquery, matchCore_scheme]
  exact matchTail_noquery host.data path.data
    (data_ne_nil_of_ne_empty host hh) hh2 (data_ne_nil_of_ne_empty path hp) hp2

theorem matchTail_some_decomp (rest : List Char) (g : List Char × List Char × List Char)
    (hm : matchTail rest = some g) :
    ∃ hostL pathL : List Char, hostL ≠ [] ∧ '/' ∉ hostL ∧ pathL ≠ [] ∧ '?' ∉ pathL ∧
      (rest = hostL ++ '/' :: pathL ∨
       ∃ qL : List Char, rest = hostL ++ '/' :: (pathL ++ '?' :: qL)) := by
  unfold matchTail at hm
  rcases ht : rest.takeWhile (fun c => c != '/') with _ | ⟨a, as⟩
  · rw [ht] at hm; simp at hm
  rcases hd : rest.dropWhile (fun c => c != '/') with _ | ⟨c, rest2⟩
  · rw [ht, hd] at hm; simp at hm
  rw [ht, hd] at hm
  dsimp only at hm
  have hc : c = '/' := by
    have hne : rest.dropWhile (fun c => c != '/') ≠ [] := by rw [hd]; simp
    have hh := List.head_dropWhile_not (fun c => c != '/') rest hne
    simp [hd] at hh
    exact hh
  subst hc
  rw [if_pos rfl] at hm
  rcases hp2 : rest2.takeWhile (fun c => c != '?') with _ | ⟨b, bs⟩
  · rw [hp2] at hm; simp at hm
  rw [hp2] at hm
  have e1 : rest = (a :: as) ++ '/' :: rest2 := by
    conv_lhs => rw [← List.takeWhile_append_dropWhile (fun c => c != '/') rest]
    rw [ht, hd]
  have e2 : rest2 = (b :: bs) ++ rest2.dropWhile (fun c => c != '?') := by
    conv_lhs => rw [← List.takeWhile_append_dropWhile (fun c => c != '?') rest2]
    rw [hp2]
  refine ⟨a :: as, b :: bs, by simp, ?_, by simp, ?_, ?_⟩
  · intro hmem
    have := List.mem_takeWhile_imp (ht ▸ hmem)
    simp at this
  · intro hmem
    have := List.mem_takeWhile_imp (hp2 ▸ hmem)
    simp at this
  · rcases hd2 : rest2.dropWhile (fun c => c != '?') with _ | ⟨c2, r2⟩
    · left
      rw [e1, e2, hd2]
      simp
    · right
      have hc2 : c2 = '?' := by
        have hne : rest2.dropWhile (fun c => c != '?') ≠ [] := by rw [hd2]; simp
        have hh := List.head_dropWhile_not (fun c => c != '?') rest2 hne
        simp [hd2] at hh
        exact hh
      subst hc2
      exact ⟨r2, by rw [e1, e2, hd2]⟩

theorem matchCore_some_shape (url : String) (g : List Char × List Char × List Char)
    (hm : matchCore url.data = some g) : shapeOK url := by
  unfold matchCore at hm
  by_cases h8 : url.data.take 8 = httpsChars
  · rw [if_pos h8] at hm
    obtain ⟨hostL, pathL, hh, hh2, hp, hp2, hcase⟩ := matchTail_some_decomp _ g hm
    have hsplit : url.data = httpsChars ++ url.data.drop 8 := by
      conv_lhs => rw [← List.take_append_drop 8 url.data]
      rw [h8]
    refine ⟨⟨hostL⟩, ⟨pathL⟩, ?_, hh2, ?_, hp2, ?_⟩
    · intro he; exact hh (congrArg String.data he)
    · intro he; exact hp (congrArg String.data he)
    · rcases hcase with hnq | ⟨qL, hq⟩
      · left
        apply String.ext
        rw [data_url_noquery, hsplit, hnq]
      · right
        refine ⟨⟨qL⟩, ?_⟩
        apply String.ext
        rw [data_url_query, hsplit, hq]
  · rw [if_neg h8] at hm
    exact absurd hm (by simp)

theorem no_shape_of_http (hs : shapeOK "http://host/c") : False := by
  obtain ⟨host, path, hh, hh2, hp, hp2, hcase⟩ := hs
  rcases hcase with hnq | ⟨q, hq⟩
  · have hd := congrArg String.data hnq
    rw [data_url_noquery] at hd
    simp [httpsChars] at hd
  · have hd := congrArg String.data hq
    rw [data_url_query] at hd
    simp [httpsChars] at hd

/-! Claim theorems. -/

/-- C6: the content hash is deterministic and chunk-independent: local
file properties computed over unchanged contents yield the identical
digest, the streaming computation in 2^20-byte chunks equals the digest
of the entire contents hashed in one pass, and the digest is 16 bytes
(128 bits) long. -/
theorem content_hash_deterministic_and_chunked (f g : LocalFile)
    (h : f.contents = g.contents) :
    (local_props f).1 = (local_props g).1
    ∧ (local_props f).1 = md5Digest f.contents
    ∧ (local_props f).1.length = 16 := by
  refine ⟨?_, ?_, ?_⟩
  · simp [local_props, h]
  · simp [local_props, md5DigestChunked_eq]
  · show (md5DigestChunked f.contents).length = 16
    unfold md5DigestChunked
    exact length_md5Final _

theorem content_hash_deterministic_and_chunked_witness :
    (local_props ⟨[7, 7], 1⟩).1 = (local_props ⟨[7, 7], 2⟩).1
    ∧ (local_props ⟨[7, 7], 1⟩).1 = md5Digest [7, 7]
    ∧ (local_props ⟨[7, 7], 1⟩).1.length = 16 :=
  content_hash_deterministic_and_chunked ⟨[7, 7], 1⟩ ⟨[7, 7], 2⟩ rfl

/-- C5 counterexample: the location https://h/p?(newline) has host h,
container path p and a non-empty query (a single newline character), yet
resolution accepts it and constructs a handle instead of raising the
security-policy rejection, because the final capture of the pattern stops
at a newline. -/
theorem query_newline_accepted_counterexample :
    ("\n" : String) ≠ ""
    ∧ get_container_client ("https://" ++ "h" ++ "/" ++ "p" ++ "?" ++ "\n")
        = .ok "https://h" "p"
    ∧ Resolved.ok "https://h" "p" ≠ .securityPolicyError := by
  refine ⟨by decide, by decide, by decide⟩

/-- C5 (amended): for every container location of shape
https host slash containerPath question-mark query whose query text
before any newline is non-empty, resolution raises the security-policy
error, and store, retrieve and list_stored all surface it with the world
untouched and no container handle constructed. -/
theorem security_policy_on_nonblank_query (host path query : String)
    (hh : host ≠ "") (hh2 : '/' ∉ host.data) (hp : path ≠ "") (hp2 : '?' ∉ path.data)
    (hq : query.data.takeWhile (fun c => c != '\n') ≠ []) :
    get_container_client ("https://" ++ host ++ "/" ++ path ++ "?" ++ query)
        = .securityPolicyError
    ∧ (∀ mime now w lfn bfn forced,
        store mime now w lfn bfn ("https://" ++ host ++ "/" ++ path ++ "?" ++ query) forced
          = (.securityPolicyError, w))
    ∧ (∀ now w lfn bfn forced,
        retrieve now w lfn bfn ("https://" ++ host ++ "/" ++ path ++ "?" ++ query) forced
          = (.securityPolicyError, w))
    ∧ (∀ w pre,
        list_stored w pre ("https://" ++ host ++ "/" ++ path ++ "?" ++ query)
          = .securityPolicyError) := by
  have hres : get_container_client ("https://" ++ host ++ "/" ++ path ++ "?" ++ query)
      = .securityPolicyError := by
    unfold get_container_client
    rw [matchCore_query host path query hh hh2 hp hp2]
    simp [hq]
  refine ⟨hres, fun mime now w lfn bfn forced => ?_, fun now w lfn bfn forced => ?_,
    fun w pre => ?_⟩
  · unfold store; rw [hres]
  · unfold retrieve; rw [hres]
  · unfold list_stored; rw [hres]

theorem security_policy_on_nonblank_query_witness :
    get_container_client ("https://" ++ "h" ++ "/" ++ "p" ++ "?" ++ "token")
        = .securityPolicyError
    ∧ store (fun _ => "t") 0 ⟨[], []⟩ "a" "b"
        ("https://" ++ "h" ++ "/" ++ "p" ++ "?" ++ "token") false
        = (.securityPolicyError, ⟨[], []⟩) := by
  have h := security_policy_on_nonblank_query "h" "p" "token"
    (by decide) (by decide) (by decide) (by decide) (by decide)
  exact ⟨h.1, h.2.1 (fun _ => "t") 0 ⟨[], []⟩ "a" "b" false⟩

/-- C7: every container location that fails the expected URL shape makes
resolution fail with the format error, which is distinct from the
security-policy error. -/
theorem format_error_on_malformed_location (url : String) (h : ¬ shapeOK url) :
    get_container_client url = .formatError
    ∧ Resolved.formatError ≠ Resolved.securityPolicyError := by
  refine ⟨?_, by decide⟩
  cases hm : matchCore url.data with
  | none => unfold get_container_client; rw [hm]
  | some g => exact absurd (matchCore_some_shape url g hm) h

theorem format_error_on_malformed_location_witness :
    ¬ shapeOK "http://host/c"
    ∧ (get_container_client "http://host/c" = .formatError
       ∧ Resolved.formatError ≠ Resolved.securityPolicyError) := by
  have hns : ¬ shapeOK "http://host/c" := no_shape_of_http
  exact ⟨hns, format_error_on_malformed_location "http://host/c" hns⟩

/-- C10: the security-policy rejection fires exactly when the third
captured group of the pattern — the text captured after the question mark
— is non-empty; a location ending in a bare question mark (empty capture)
is accepted and yields the same handle as the query-free location. -/
theorem security_rejection_iff_captured_query_nonempty :
    (∀ (url : String) (g : List Char × List Char × List Char),
        matchCore url.data = some g →
          (get_container_client url = .securityPolicyError ↔ g.2.2 ≠ []))
    ∧ get_container_client "https://host/container?" = .ok "https://host" "container"
    ∧ get_container_client "https://host/container" = .ok "https://host" "container" := by
  refine ⟨fun url g hm => ?_, by decide, by decide⟩
  obtain ⟨g1, g2, g3⟩ := g
  unfold get_container_client
  rw [hm]
  dsimp only
  by_cases hq : g3 = [] <;> simp [hq]

theorem security_rejection_iff_captured_query_nonempty_witness :
    get_container_client "https://h/c?tok" = .securityPolicyError
      ↔ ("https://h".data, "c".data, "tok".data).2.2 ≠ [] :=
  security_rejection_iff_captured_query_nonempty.1 "https://h/c?tok"
    ("https://h".data, "c".data, "tok".data) (by decide)

/-- C1: when the remote object exists and its stored content hash differs
from the locally computed hash, store with forced false raises the
conflict error carrying both sizes and both modification times, and
performs no upload: the world is unchanged. -/
theorem store_conflict_on_hash_mismatch
    (mime : List Nat → String) (now : Nat) (w : World)
    (lfn bfn url a c : String) (f : LocalFile) (b : RemoteObject)
    (hres : get_container_client url = .ok a c)
    (hl : lookupA lfn w.localFiles = some f)
    (hb : lookupA bfn w.remoteObjects = some b)
    (hdiff : b.contentMd5 ≠ (local_props f).1) :
    store mime now w lfn bfn url false =
      (.conflictError lfn bfn f.contents.length f.mtime b.contents.length b.mtime, w) := by
  unfold store
  rw [hres]
  dsimp only
  rw [hl]
  dsimp only
  rw [hb]
  dsimp only
  rw [if_neg (show ¬((blob_props b).1 = (local_props f).1) from hdiff)]
  simp [local_props, blob_props]

theorem store_conflict_on_hash_mismatch_witness :
    get_container_client "https://h/c" = .ok "https://h" "c"
    ∧ store (fun _ => "t") 9 ⟨[("f.txt", ⟨[0], 5⟩)], [("b.txt", ⟨[1, 2], [9], "t", 7⟩)]⟩
        "f.txt" "b.txt" "https://h/c" false
      = (.conflictError "f.txt" "b.txt" 1 5 2 7,
         ⟨[("f.txt", ⟨[0], 5⟩)], [("b.txt", ⟨[1, 2], [9], "t", 7⟩)]⟩) :=
  ⟨by decide,
   store_conflict_on_hash_mismatch (fun _ => "t") 9
     ⟨[("f.txt", ⟨[0], 5⟩)], [("b.txt", ⟨[1, 2], [9], "t", 7⟩)]⟩
     "f.txt" "b.txt" "https://h/c" "https://h" "c" ⟨[0], 5⟩ ⟨[1, 2], [9], "t", 7⟩
     (by decide) rfl rfl (by decide)⟩

/-- C2: when the remote object exists and its stored content hash equals
the locally computed hash, store with forced false performs no upload,
does not raise, and returns no explicit success signal: the outcome is
the silent skip and the world is unchanged. -/
theorem store_skips_on_matching_hash
    (mime : List Nat → String) (now : Nat) (w : World)
    (lfn bfn url a c : String) (f : LocalFile) (b : RemoteObject)
    (hres : get_container_client url = .ok a c)
    (hl : lookupA lfn w.localFiles = some f)
    (hb : lookupA bfn w.remoteObjects = some b)
    (heq : b.contentMd5 = (local_props f).1) :
    store mime now w lfn bfn url false = (.ok none, w) := by
  unfold store
  rw [hres]
  dsimp only
  rw [hl]
  dsimp only
  rw [hb]
  dsimp only
  rw [if_pos (show (blob_props b).1 = (local_props f).1 from heq)]

theorem store_skips_on_matching_hash_witness :
    store (fun _ => "t") 9 ⟨[("f", ⟨[3], 5⟩)], [("b", ⟨[3], md5DigestChunked [3], "t", 7⟩)]⟩
        "f" "b" "https://h/c" false
      = (.ok none, ⟨[("f", ⟨[3], 5⟩)], [("b", ⟨[3], md5DigestChunked [3], "t", 7⟩)]⟩) :=
  store_skips_on_matching_hash (fun _ => "t") 9
    ⟨[("f", ⟨[3], 5⟩)], [("b", ⟨[3], md5DigestChunked [3], "t", 7⟩)]⟩
    "f" "b" "https://h/c" "https://h" "c" ⟨[3], 5⟩ ⟨[3], md5DigestChunked [3], "t", 7⟩
    (by decide) rfl rfl rfl

/-- C3: when the remote object is absent (whatever forced is) or forced
is true, store uploads the local bytes with unconditional overwrite,
tagging the remote object with the locally computed content hash and the
detected media type, and returns true. -/
theorem store_uploads_when_absent_or_forced
    (mime : List Nat → String) (now : Nat) (w : World)
    (lfn bfn url a c : String) (f : LocalFile) (forced : Bool)
    (hres : get_container_client url = .ok a c)
    (hl : lookupA lfn w.localFiles = some f)
    (hcase : lookupA bfn w.remoteObjects = none ∨ forced = true) :
    store mime now w lfn bfn url forced =
      (.ok (some true),
       ⟨w.localFiles,
        updateA bfn ⟨f.contents, (local_props f).1, mime f.contents, now⟩
          w.remoteObjects⟩) := by
  unfold store
  rw [hres]
  dsimp only
  rw [hl]
  dsimp only
  rcases hcase with hb | hf
  · rw [hb]
  · subst hf
    cases lookupA bfn w.remoteObjects <;> rfl

theorem store_uploads_when_absent_or_forced_witness :
    store (fun _ => "text/plain") 9 ⟨[("f", ⟨[4], 5⟩)], []⟩ "f" "b" "https://h/c" false
      = (.ok (some true),
         ⟨[("f", ⟨[4], 5⟩)],
          updateA "b" ⟨[4], (local_props (⟨[4], 5⟩ : LocalFile)).1, "text/plain", 9⟩ []⟩) :=
  store_uploads_when_absent_or_forced (fun _ => "text/plain") 9
    ⟨[("f", ⟨[4], 5⟩)], []⟩ "f" "b" "https://h/c" "https://h" "c" ⟨[4], 5⟩ false
    (by decide) rfl (Or.inl rfl)

/-- C4: retrieve mirrors store with the roles reversed: with an existing
local file and forced false, a matching hash pair yields the silent skip
and a mismatching pair raises the conflict error with both sizes and
modification times; with the local file absent or forced true, retrieve
writes the remote bytes into the local path and returns true. -/
theorem retrieve_mirrors_store
    (now : Nat) (w : World) (lfn bfn url a c : String) (b : RemoteObject)
    (hres : get_container_client url = .ok a c)
    (hb : lookupA bfn w.remoteObjects = some b) :
    (∀ f, lookupA lfn w.localFiles = some f → b.contentMd5 = (local_props f).1 →
        retrieve now w lfn bfn url false = (.ok none, w))
    ∧ (∀ f, lookupA lfn w.localFiles = some f → b.contentMd5 ≠ (local_props f).1 →
        retrieve now w lfn bfn url false =
          (.conflictError lfn bfn f.contents.length f.mtime b.contents.length b.mtime, w))
    ∧ (∀ forced, lookupA lfn w.localFiles = none ∨ forced = true →
        retrieve now w lfn bfn url forced =
          (.ok (some true),
           ⟨updateA lfn ⟨b.contents, now⟩ w.localFiles, w.remoteObjects⟩)) := by
  refine ⟨fun f hl heq => ?_, fun f hl hdiff => ?_, fun forced hcase => ?_⟩
  · unfold retrieve
    rw [hres]
    dsimp only
    rw [hl]
    dsimp only
    rw [hb]
    dsimp only
    rw [if_pos (show (blob_props b).1 = (local_props f).1 from heq)]
  · unfold retrieve
    rw [hres]
    dsimp only
    rw [hl]
    dsimp only
    rw [hb]
    dsimp only
    rw [if_neg (show ¬((blob_props b).1 = (local_props f).1) from hdiff)]
    simp [local_props, blob_props]
  · unfold retrieve
    rw [hres]
    dsimp only
    rcases hcase with hl | hf
    · rw [hl]
      cases forced <;> (dsimp only; rw [hb])
    · subst hf
      cases lookupA lfn w.localFiles <;> (dsimp only; rw [hb])

theorem retrieve_mirrors_store_witness :
    retrieve 9 ⟨[("f", ⟨[3], 5⟩)], [("b", ⟨[6], md5DigestChunked [3], "t", 7⟩)]⟩
        "f" "b" "https://h/c" false
      = (.ok none, ⟨[("f", ⟨[3], 5⟩)], [("b", ⟨[6], md5DigestChunked [3], "t", 7⟩)]⟩)
    ∧ retrieve 9 ⟨[("f", ⟨[0], 5⟩)], [("b", ⟨[1, 2], [9], "t", 7⟩)]⟩
        "f" "b" "https://h/c" false
      = (.conflictError "f" "b" 1 5 2 7,
         ⟨[("f", ⟨[0], 5⟩)], [("b", ⟨[1, 2], [9], "t", 7⟩)]⟩)
    ∧ retrieve 11 ⟨[], [("b", ⟨[8, 8], [9], "t", 7⟩)]⟩ "f" "b" "https://h/c" false
      = (.ok (some true),
         ⟨updateA "f" ⟨[8, 8], 11⟩ [], [("b", ⟨[8, 8], [9], "t", 7⟩)]⟩) :=
  ⟨(retrieve_mirrors_store 9 ⟨[("f", ⟨[3], 5⟩)], [("b", ⟨[6], md5DigestChunked [3], "t", 7⟩)]⟩
      "f" "b" "https://h/c" "https://h" "c" ⟨[6], md5DigestChunked [3], "t", 7⟩
      (by decide) rfl).1 ⟨[3], 5⟩ rfl rfl,
   (retrieve_mirrors_store 9 ⟨[("f", ⟨[0], 5⟩)], [("b", ⟨[1, 2], [9], "t", 7⟩)]⟩
      "f" "b" "https://h/c" "https://h" "c" ⟨[1, 2], [9], "t", 7⟩
      (by decide) rfl).2.1 ⟨[0], 5⟩ rfl (by decide),
   (retrieve_mirrors_store 11 ⟨[], [("b", ⟨[8, 8], [9], "t", 7⟩)]⟩
      "f" "b" "https://h/c" "https://h" "c" ⟨[8, 8], [9], "t", 7⟩
      (by decide) rfl).2.2 false (Or.inl rfl)⟩

/-- C8: in every branch, store leaves the local file table untouched and
retrieve leaves the remote object table untouched. -/
theorem store_no_local_write_retrieve_no_remote_write
    (mime : List Nat → String) (now : Nat) (w : World)
    (lfn bfn url : String) (forced : Bool) :
    (store mime now w lfn bfn url forced).2.localFiles = w.localFiles
    ∧ (retrieve now w lfn bfn url forced).2.remoteObjects = w.remoteObjects := by
  constructor
  · unfold store
    repeat' split
    all_goals try rfl
    all_goals (dsimp only; split <;> rfl)
  · unfold retrieve
    repeat' split
    all_goals try rfl
    all_goals (dsimp only; split <;> rfl)

/-- C9: with a resolvable container location, list_stored returns the
finite materialized list of the remote entries whose key starts with the
requested text, in listing order, and every returned entry's key does
start with that text. -/
theorem list_stored_only_matching_keys (w : World) (pre url a c : String)
    (hres : get_container_client url = .ok a c) :
    list_stored w pre url
      = .ok (w.remoteObjects.filter (fun e => keyStartsWith pre e.1))
    ∧ ∀ e ∈ w.remoteObjects.filter (fun e => keyStartsWith pre e.1),
        keyStartsWith pre e.1 = true := by
  refine ⟨?_, fun e he => (List.mem_filter.mp he).2⟩
  unfold list_stored
  rw [hres]

theorem list_stored_only_matching_keys_witness :
    list_stored ⟨[], [("a/x", ⟨[1], [2], "t", 3⟩), ("b/y", ⟨[4], [5], "t", 6⟩)]⟩
        "a/" "https://h/c"
      = .ok ([("a/x", ⟨[1], [2], "t", 3⟩), ("b/y", ⟨[4], [5], "t", 6⟩)].filter
          (fun e => keyStartsWith "a/" e.1))
    ∧ ∀ e ∈ [("a/x", (⟨[1], [2], "t", 3⟩ : RemoteObject)), ("b/y", ⟨[4], [5], "t", 6⟩)].filter
          (fun e => keyStartsWith "a/" e.1),
        keyStartsWith "a/" e.1 = true :=
  list_stored_only_matching_keys
    ⟨[], [("a/x", ⟨[1], [2], "t", 3⟩), ("b/y", ⟨[4], [5], "t", 6⟩)]⟩
    "a/" "https://h/c" "https://h" "c" (by decide)
